import Mathlib

/-!
Verification of pytorch_tools/modules/residual.py.

The file shallowly embeds the construction-time configuration logic and the
forward-pass wiring of the residual blocks in residual.py. Submodules whose
implementation lives in the external tensor engine (convolutions, batch
normalization, attention bodies, the low-pass filter) are abstract functions
on tensors; everything the repository computes itself (enablement flags,
strides, operation order, channel splitting, the drop-connect formula, the
attention lookup table) is translated directly from the source.

A tensor is reduced to its channel axis: one rational per channel, batch 1
and spatial extent 1. Channel bookkeeping is the only tensor structure the
code of residual.py manipulates itself. Drop connect is modelled separately
with an explicit batch axis, because its claim is about per-sample
randomness.
-/

set_option linter.unusedVariables false

/-- A tensor restricted to its channel axis: one rational per channel. -/
abbrev ChTensor := List ℚ

/-- Elementwise addition with the channel-broadcast rule of the external
engine: the sum exists when the channel counts agree or one of them is 1;
any other combination raises at run time, modelled as none. -/
def tensorAdd (a b : ChTensor) : Option ChTensor :=
  if a.length = b.length then some (List.zipWith (fun p q => p + q) a b)
  else if a.length = 1 then some (b.map (fun v => a.headI + v))
  else if b.length = 1 then some (a.map (fun v => v + b.headI))
  else none

/-- torch.cat of two tensors along the channel axis. -/
def tensorCat (a b : ChTensor) : ChTensor := a ++ b

/-- Pieces of s channels each, the last piece keeping the remainder.
Helper for torchChunk. -/
def chunksOf : ℕ → ChTensor → List ChTensor
  | _, [] => []
  | 0, a :: x => [a :: x]
  | s + 1, a :: x => (a :: x).take (s + 1) :: chunksOf (s + 1) ((a :: x).drop (s + 1))
termination_by _ x => x.length
decreasing_by simp [List.drop]; omega

/-- torch.chunk(x, chunks=k, dim=1): pieces of ceil(channels / k) channels
each, the last piece keeping the remainder; fewer than k pieces when the
channel count is small. -/
def torchChunk (k : ℕ) (x : ChTensor) : List ChTensor :=
  chunksOf ((x.length + k - 1) / k) x

/-! ## Attention lookup (residual.py lines 35-127)

SEModule, ECAModule, SSEModule and SCSEModule are classes of residual.py;
get_attn returns a class (a constructor), so the codomain here is a tag
naming which class was returned. -/

/-- The classes get_attn can return. -/
inductive AttnClass where
  | SEModule
  | ECAModule
  | SSEModule
  | SCSEModule
  | Identity
deriving DecidableEq, Repr

/-- The lookup table ATT_TO_MODULE of get_attn (residual.py line 123). -/
def ATT_TO_MODULE : List (String × AttnClass) :=
  [("se", AttnClass.SEModule), ("eca", AttnClass.ECAModule),
   ("sse", AttnClass.SSEModule), ("scse", AttnClass.SCSEModule)]

/-- The str.lower() call of get_attn, modelled characterwise; it agrees with
the Python method on the ASCII names the table holds. -/
def strLower (s : String) : String := String.mk (s.data.map Char.toLower)

/-- get_attn (residual.py lines 113-127): None maps to nn.Identity, a string
is lowercased and looked up in ATT_TO_MODULE; a failed lookup is the KeyError
the dict raises, modelled as none. -/
def get_attn (attn_type : Option String) : Option AttnClass :=
  match attn_type with
  | none => some AttnClass.Identity
  | some s => ATT_TO_MODULE.lookup (strLower s)

/-- Modelled from the spec: nn.Identity, the pass-through module used when
attention is absent, is external to src/; the spec calls it an identity
whose output equals its input. -/
def identityModuleForward (x : ChTensor) : ChTensor := x

/-! ## Drop connect (residual.py lines 201-217)

DropConnect.forward with the training flag. The tensor is a batch: one list
of values per sample, with exact (rational) scalars. torch.rand draws one
uniform value in [0,1) per batch element; the draw is modelled by an
arbitrary function u from the sample index to the value drawn. -/

/-- DropConnect.forward (residual.py lines 209-217): in inference the input
is returned unchanged; in training every sample i is multiplied elementwise
by floor(keep_prob + u i) / keep_prob. -/
def DropConnect.forward (training : Bool) (keep_prob : ℚ)
    (x : List (List ℚ)) (u : ℕ → ℚ) : List (List ℚ) :=
  if training then
    (List.range x.length).map fun i =>
      (x.getD i []).map fun v => v / keep_prob * ((⌊keep_prob + u i⌋ : ℤ) : ℚ)
  else x

/-- The set of uniform draws in [0,1) for which a sample is kept, over the
reals: those t with floor(keep_prob + t) = 1, the binary mask of
DropConnect.forward being 1. -/
def DropConnect.keepSet (keep_prob : ℝ) : Set ℝ :=
  {t : ℝ | t ∈ Set.Ico (0 : ℝ) 1 ∧ ⌊keep_prob + t⌋ = 1}

/-! ## Inverted residual (residual.py lines 145-198)

Submodules built by the constructor (conv_pw, bn1, conv_dw, bn2, se,
conv_pw1, bn3, drop_connect) are abstract tensor functions; the flags and
the activation string handed to bn3 are translated from the constructor. -/

/-- has_residual of InvertedResidual (residual.py line 162). -/
def InvertedResidual.has_residual (in_channels out_channels stride : ℕ)
    (noskip : Bool) : Bool :=
  (in_channels == out_channels && stride == 1) && !noskip

/-- has_expansion of InvertedResidual (residual.py line 163). -/
def InvertedResidual.has_expansion (expand_r : ℚ) : Bool := expand_r != 1

/-- The activation string the constructor hands to the normalization bn3
placed after the projection convolution (residual.py line 182). -/
def InvertedResidual.bn3_activation : String := "identity"

/-- InvertedResidual.forward (residual.py lines 185-198). -/
def InvertedResidual.forward (has_expansion has_residual : Bool)
    (conv_pw bn1 conv_dw bn2 se conv_pw1 bn3 drop_connect : ChTensor → ChTensor)
    (x : ChTensor) : Option ChTensor :=
  let residual := x
  let x := if has_expansion then bn1 (conv_pw x) else x
  let x := conv_dw x
  let x := bn2 x
  let x := se x
  let x := conv_pw1 x
  let x := bn3 x
  if has_residual then tensorAdd (drop_connect x) residual else some x

/-! ## Basic block and bottleneck (residual.py lines 223-333)

Claim C6 is about where the strides and the low-pass filter sit in the main
branch, so the branch is embedded as the ordered list of its operations,
each convolution carrying the stride the constructor gives it. -/

/-- One operation of a residual block main branch. -/
inductive LayerOp where
  | conv (stride : ℕ)
  | norm
  | blur
  | se
  | dropConnect
  | addResidual
  | act
deriving DecidableEq, Repr

/-- Modelled from the spec: BlurPool is a module of this repository outside
src/; the spec describes it as the low-pass filter that performs the
stride-2 downsampling in place of the convolution. Every other operation
leaves the spatial size alone except a convolution, which downsamples by
its stride. -/
def LayerOp.downsampleFactor : LayerOp → ℕ
  | LayerOp.conv s => s
  | LayerOp.blur => 2
  | _ => 1

/-- Overall spatial downsampling of a branch. -/
def pathDownsampleFactor (p : List LayerOp) : ℕ :=
  (p.map LayerOp.downsampleFactor).prod

/-- The claim of C6 read literally: some blur operation is followed, further
down the branch, by a convolution whose stride is at least 2. -/
def blurBeforeStridedConv (p : List LayerOp) : Bool :=
  p.enum.any fun iop =>
    iop.2 == LayerOp.blur &&
      (p.drop (iop.1 + 1)).any fun op =>
        match op with
        | LayerOp.conv s => decide (2 ≤ s)
        | _ => false

/-- The reassignment antialias = antialias and stride == 2 opening
BasicBlock.__init__ (residual.py line 242). -/
def BasicBlock.antialiasEffective (antialias : Bool) (stride : ℕ) : Bool :=
  antialias && stride == 2

/-- conv1_stride of BasicBlock.__init__ (residual.py line 246). -/
def BasicBlock.conv1_stride (antialias : Bool) (stride : ℕ) : ℕ :=
  if BasicBlock.antialiasEffective antialias stride then 1 else stride

/-- The main branch of BasicBlock.forward in order (residual.py lines
258-272): conv1 (3x3, stride conv1_stride), bn1, the blur pool when
antialias is in effect, conv2 (3x3, stride 1), bn2, attention, drop
connect, residual addition, final activation. -/
def BasicBlock.mainPath (antialias : Bool) (stride : ℕ) : List LayerOp :=
  [LayerOp.conv (BasicBlock.conv1_stride antialias stride), LayerOp.norm]
    ++ (if BasicBlock.antialiasEffective antialias stride then [LayerOp.blur] else [])
    ++ [LayerOp.conv 1, LayerOp.norm, LayerOp.se, LayerOp.dropConnect,
        LayerOp.addResidual, LayerOp.act]

/-- The reassignment antialias = antialias and stride == 2 opening
Bottleneck.__init__ (residual.py line 297). -/
def Bottleneck.antialiasEffective (antialias : Bool) (stride : ℕ) : Bool :=
  antialias && stride == 2

/-- conv2_stride of Bottleneck.__init__ (residual.py line 303). -/
def Bottleneck.conv2_stride (antialias : Bool) (stride : ℕ) : ℕ :=
  if Bottleneck.antialiasEffective antialias stride then 1 else stride

/-- The main branch of Bottleneck.forward in order (residual.py lines
315-333): conv1 (1x1, stride 1), bn1, conv2 (3x3, stride conv2_stride),
bn2, the blur pool when antialias is in effect, conv3 (1x1, stride 1),
bn3, attention, drop connect, residual addition, final activation. -/
def Bottleneck.mainPath (antialias : Bool) (stride : ℕ) : List LayerOp :=
  [LayerOp.conv 1, LayerOp.norm,
   LayerOp.conv (Bottleneck.conv2_stride antialias stride), LayerOp.norm]
    ++ (if Bottleneck.antialiasEffective antialias stride then [LayerOp.blur] else [])
    ++ [LayerOp.conv 1, LayerOp.norm, LayerOp.se, LayerOp.dropConnect,
        LayerOp.addResidual, LayerOp.act]

/-! ## DarkNet basic block (residual.py lines 386-420) -/

/-- DarkBasicBlock.forward (residual.py lines 411-420), translated
statement by statement: out is bound to bn1 x and immediately rebound to
conv1 x, so the first normalization is computed and discarded; the residual
addition of x is unconditional. -/
def DarkBasicBlock.forward
    (bn1 conv1 bn2 conv2 attention drop_connect : ChTensor → ChTensor)
    (x : ChTensor) : Option ChTensor :=
  let out := bn1 x
  let out := conv1 x
  let out := bn2 out
  let out := conv2 out
  tensorAdd (drop_connect (attention out)) x

/-! ## Simplified bottlenecks (residual.py lines 454-532) -/

/-- has_residual of SimpleBottleneck (residual.py line 478). -/
def SimpleBottleneck.has_residual (in_chs out_chs stride : ℕ) : Bool :=
  in_chs == out_chs && stride == 1

/-- SimpleBottleneck.forward (residual.py lines 482-493). -/
def SimpleBottleneck.forward (has_residual : Bool)
    (conv1 bn1 conv2 bn2 conv3 bn3 : ChTensor → ChTensor)
    (x : ChTensor) : Option ChTensor :=
  let out := conv1 x
  let out := bn1 out
  let out := conv2 out
  let out := bn2 out
  let out := conv3 out
  if has_residual then tensorAdd (bn3 out) x else some (bn3 out)

/-- has_residual of SimplePreActBottleneck (residual.py line 520). -/
def SimplePreActBottleneck.has_residual (in_chs out_chs stride : ℕ) : Bool :=
  in_chs == out_chs && stride == 1

/-- SimplePreActBottleneck.forward (residual.py lines 522-532). -/
def SimplePreActBottleneck.forward (has_residual : Bool)
    (bn1 conv1 bn2 conv2 bn3 conv3 : ChTensor → ChTensor)
    (x : ChTensor) : Option ChTensor :=
  let out := bn1 x
  let out := conv1 out
  let out := bn2 out
  let out := conv2 out
  let out := bn3 out
  if has_residual then tensorAdd (conv3 out) x else some (conv3 out)

/-! ## CSPDarkBasicBlock (residual.py lines 423-451)

The first statement of its constructor, mid_channels = int(in_channels *
bottle_ratio) (line 432), reads the name bottle_ratio. The name is not
among the parameters of this __init__ (line 429 lists self, in_channels,
out_channels, attn_type, norm_layer, norm_act, keep_prob), the class body
binds no such name, and the module level of residual.py binds only the
names listed below, so CPython resolves it through locals, module globals
and builtins, finds nothing, and raises NameError before any submodule is
built. The constructor is modelled by the outcome of that first statement:
a lookup of bottle_ratio among the numeric names in scope. -/

/-- The parameter names of CSPDarkBasicBlock.__init__ (residual.py line
429). -/
def CSPDarkBasicBlock.initParamNames : List String :=
  ["self", "in_channels", "out_channels", "attn_type", "norm_layer",
   "norm_act", "keep_prob"]

/-- Every module-level binding of residual.py: its imports (lines 1-13) and
its top-level defs and classes. -/
def residualModuleGlobals : List String :=
  ["math", "torch", "nn", "partial", "ABN", "activation_from_name",
   "BlurPool", "FastGlobalAvgPool2d", "make_divisible", "SpaceToDepth",
   "conv3x3", "conv1x1", "SEModule", "ECAModule", "SSEModule", "SCSEModule",
   "get_attn", "DepthwiseSeparableConv", "InvertedResidual", "DropConnect",
   "BasicBlock", "Bottleneck", "TBasicBlock", "TBottleneck",
   "DarkBasicBlock", "CSPDarkBasicBlock", "SimpleBottleneck",
   "SimplePreActBottleneck", "SimpleStage", "CrossStage"]

/-- The numeric locals in scope when the first statement of
CSPDarkBasicBlock.__init__ runs: the numeric parameters with their values. -/
def CSPDarkBasicBlock.initLocals (in_channels out_channels keep_prob : ℚ) :
    List (String × ℚ) :=
  [("in_channels", in_channels), ("out_channels", out_channels),
   ("keep_prob", keep_prob)]

/-- CSPDarkBasicBlock.__init__ up to its first statement, mid_channels =
int(in_channels * bottle_ratio) (residual.py line 432): the value of
bottle_ratio is looked up in scope; an unresolvable name is the NameError
CPython raises, modelled as an error value. -/
def CSPDarkBasicBlock.init (in_channels out_channels keep_prob : ℚ) :
    Except String ℤ :=
  match (CSPDarkBasicBlock.initLocals in_channels out_channels keep_prob).lookup
      "bottle_ratio" with
  | some br => Except.ok ⌊in_channels * br⌋
  | none => Except.error "NameError: name bottle_ratio is not defined"

/-! ## Cross-stage-partial stage (residual.py lines 577-621) -/

/-- block_chs of CrossStage.__init__ (residual.py line 600),
int(csp_block_ratio * out_chs): the channel count given to every inner
block and to the transition convolution. -/
def CrossStage.block_chs (r : ℚ) (out_chs : ℕ) : ℕ := (⌊r * out_chs⌋).toNat

/-- The split of CrossStage.forward (residual.py lines 612-616): a 2-way
chunk when the ratio is 0.5, a 4-way chunk with the last three pieces
concatenated back together when the ratio is 0.75. Any other ratio leaves
x1 and x2 unbound and the forward pass raises (UnboundLocalError), modelled
as none; so is a chunk yielding fewer pieces than the unpacking expects
(a ValueError in Python). -/
def CrossStage.split (r : ℚ) (x : ChTensor) : Option (ChTensor × ChTensor) :=
  if r = 1/2 then
    match torchChunk 2 x with
    | [x1, x2] => some (x1, x2)
    | _ => none
  else if r = 3/4 then
    match torchChunk 4 x with
    | [x1, x2, x3, x4] => some (x1, tensorCat (tensorCat x2 x3) x4)
    | _ => none
  else none

/-- CrossStage.forward (residual.py lines 610-621): the first (transition)
block, the channel split, the inner blocks and the transition convolution
on the second part only, then concatenation of the untouched first part
with the processed second part. -/
def CrossStage.forward (r : ℚ)
    (first_layer blocks x2_transition : ChTensor → ChTensor)
    (x : ChTensor) : Option ChTensor :=
  let x := first_layer x
  match CrossStage.split r x with
  | some (x1, x2) => some (tensorCat x1 (x2_transition (blocks x2)))
  | none => none

/-! ## Helper lemmas on chunking -/

/-- Equation lemma: chunking the empty tensor. -/
theorem chunksOf_nil (s : ℕ) : chunksOf s [] = [] := by
  rw [chunksOf]

/-- Equation lemma: piece size zero keeps the tensor whole. -/
theorem chunksOf_zero (a : ℚ) (x : List ℚ) : chunksOf 0 (a :: x) = [a :: x] := by
  rw [chunksOf]

/-- Equation lemma: a positive piece size peels off a piece. -/
theorem chunksOf_succ (s : ℕ) (a : ℚ) (x : List ℚ) :
    chunksOf (s + 1) (a :: x) =
      (a :: x).take (s + 1) :: chunksOf (s + 1) ((a :: x).drop (s + 1)) := by
  rw [chunksOf]

/-- A nonempty tensor no longer than the piece size is one piece. -/
theorem chunksOf_of_length_le (s : ℕ) (z : ChTensor) (hne : z ≠ [])
    (h : z.length ≤ s) : chunksOf s z = [z] := by
  cases z with
  | nil => exact absurd rfl hne
  | cons a x =>
    cases s with
    | zero => exact absurd h (by simp)
    | succ t =>
      rw [chunksOf_succ, List.take_of_length_le h, List.drop_eq_nil_of_le h,
        chunksOf_nil]

/-- Chunking peels off a leading piece of exactly the piece size. -/
theorem chunksOf_append (s : ℕ) (u v : ChTensor) (hu : u.length = s)
    (hne : u ≠ []) : chunksOf s (u ++ v) = u :: chunksOf s v := by
  cases u with
  | nil => exact absurd rfl hne
  | cons a u =>
    subst hu
    rw [List.cons_append, List.length_cons, chunksOf_succ, ← List.length_cons a u,
      ← List.cons_append, List.take_left, List.drop_left]

/-- torch.chunk into two equal nonempty halves. -/
theorem torchChunk_two (u v : ChTensor) (h : u.length = v.length)
    (hne : u ≠ []) : torchChunk 2 (u ++ v) = [u, v] := by
  have hv : v ≠ [] := by
    intro hv0
    subst hv0
    simp only [List.length_nil] at h
    exact hne (List.length_eq_zero.mp h)
  have hs : ((u ++ v).length + 2 - 1) / 2 = u.length := by
    rw [List.length_append, ← h]; omega
  rw [torchChunk, hs, chunksOf_append u.length u v rfl hne,
    chunksOf_of_length_le u.length v hv (le_of_eq h.symm)]

/-- torch.chunk into four equal nonempty quarters. -/
theorem torchChunk_four (q1 q2 q3 q4 : ChTensor) (h2 : q1.length = q2.length)
    (h3 : q1.length = q3.length) (h4 : q1.length = q4.length)
    (hne : q1 ≠ []) :
    torchChunk 4 (q1 ++ (q2 ++ (q3 ++ q4))) = [q1, q2, q3, q4] := by
  have hpos : 0 < q1.length := List.length_pos.mpr hne
  have hne2 : q2 ≠ [] := by rw [← List.length_pos, ← h2]; exact hpos
  have hne3 : q3 ≠ [] := by rw [← List.length_pos, ← h3]; exact hpos
  have hne4 : q4 ≠ [] := by rw [← List.length_pos, ← h4]; exact hpos
  have hs : ((q1 ++ (q2 ++ (q3 ++ q4))).length + 4 - 1) / 4 = q1.length := by
    simp only [List.length_append]; omega
  rw [torchChunk, hs, chunksOf_append q1.length q1 _ rfl hne,
    chunksOf_append q1.length q2 _ h2.symm hne2,
    chunksOf_append q1.length q3 _ h3.symm hne3,
    chunksOf_of_length_le q1.length q4 hne4 (le_of_eq h4.symm)]

/-! ## The claims -/

/-- Claim C3: in inference mode (training flag false) DropConnect.forward
returns its input unchanged for every keep probability and every input. -/
theorem dropConnect_inference_identity (keep_prob : ℚ) (x : List (List ℚ))
    (u : ℕ → ℚ) : DropConnect.forward false keep_prob x u = x := rfl

/-- Claim C2: get_attn maps each of the four names, in any letter case, to
the matching class, maps None to the identity pass-through, and fails with a
lookup error (none) on every other string; the identity pass-through returns
its input unchanged. -/
theorem get_attn_spec (s : String) :
    (strLower s = "se" → get_attn (some s) = some AttnClass.SEModule) ∧
    (strLower s = "eca" → get_attn (some s) = some AttnClass.ECAModule) ∧
    (strLower s = "sse" → get_attn (some s) = some AttnClass.SSEModule) ∧
    (strLower s = "scse" → get_attn (some s) = some AttnClass.SCSEModule) ∧
    (strLower s ≠ "se" → strLower s ≠ "eca" → strLower s ≠ "sse" →
      strLower s ≠ "scse" → get_attn (some s) = none) ∧
    get_attn none = some AttnClass.Identity ∧
    (∀ x : ChTensor, identityModuleForward x = x) := by
  refine ⟨fun h => ?_, fun h => ?_, fun h => ?_, fun h => ?_,
    fun h1 h2 h3 h4 => ?_, rfl, fun x => rfl⟩
  · simp [get_attn, ATT_TO_MODULE, List.lookup, h]
  · simp [get_attn, ATT_TO_MODULE, List.lookup, h]
  · simp [get_attn, ATT_TO_MODULE, List.lookup, h]
  · simp [get_attn, ATT_TO_MODULE, List.lookup, h]
  · simp [get_attn, ATT_TO_MODULE, List.lookup,
      beq_eq_false_iff_ne.mpr h1, beq_eq_false_iff_ne.mpr h2,
      beq_eq_false_iff_ne.mpr h3, beq_eq_false_iff_ne.mpr h4]

/-- Closed check of claim C2 at concrete inputs: mixed-case names select the
right class, an unknown name fails the lookup. -/
theorem get_attn_spec_witness :
    get_attn (some "SE") = some AttnClass.SEModule ∧
    get_attn (some "Eca") = some AttnClass.ECAModule ∧
    get_attn (some "sSe") = some AttnClass.SSEModule ∧
    get_attn (some "SCSE") = some AttnClass.SCSEModule ∧
    get_attn (some "foo") = none ∧
    get_attn none = some AttnClass.Identity :=
  ⟨(get_attn_spec "SE").1 (by decide),
   (get_attn_spec "Eca").2.1 (by decide),
   (get_attn_spec "sSe").2.2.1 (by decide),
   (get_attn_spec "SCSE").2.2.2.1 (by decide),
   (get_attn_spec "foo").2.2.2.2.1 (by decide) (by decide) (by decide) (by decide),
   (get_attn_spec "").2.2.2.2.2.1⟩

/-- Claim C1 (amended): SimpleBottleneck, SimplePreActBottleneck and
InvertedResidual (noskip left at its default False) compute, once at
construction, a residual-enablement flag that is true exactly when the
input channel count equals the output channel count and the stride is 1,
and their forward passes add the input exactly when that flag is set;
DarkBasicBlock, by contrast, computes no such flag and its forward pass
performs the residual addition unconditionally. -/
theorem residual_enablement (in_chs out_chs stride : ℕ) :
    (SimpleBottleneck.has_residual in_chs out_chs stride = true ↔
      in_chs = out_chs ∧ stride = 1) ∧
    (SimplePreActBottleneck.has_residual in_chs out_chs stride = true ↔
      in_chs = out_chs ∧ stride = 1) ∧
    (InvertedResidual.has_residual in_chs out_chs stride false = true ↔
      in_chs = out_chs ∧ stride = 1) ∧
    (∀ conv1 bn1 conv2 bn2 conv3 bn3 : ChTensor → ChTensor, ∀ x : ChTensor,
      SimpleBottleneck.forward (SimpleBottleneck.has_residual in_chs out_chs stride)
          conv1 bn1 conv2 bn2 conv3 bn3 x =
        if in_chs = out_chs ∧ stride = 1 then
          tensorAdd (bn3 (conv3 (bn2 (conv2 (bn1 (conv1 x)))))) x
        else some (bn3 (conv3 (bn2 (conv2 (bn1 (conv1 x))))))) ∧
    (∀ bn1 conv1 bn2 conv2 bn3 conv3 : ChTensor → ChTensor, ∀ x : ChTensor,
      SimplePreActBottleneck.forward
          (SimplePreActBottleneck.has_residual in_chs out_chs stride)
          bn1 conv1 bn2 conv2 bn3 conv3 x =
        if in_chs = out_chs ∧ stride = 1 then
          tensorAdd (conv3 (bn3 (conv2 (bn2 (conv1 (bn1 x)))))) x
        else some (conv3 (bn3 (conv2 (bn2 (conv1 (bn1 x))))))) ∧
    (∀ hasExp : Bool,
      ∀ conv_pw bn1 conv_dw bn2 se conv_pw1 bn3 drop_connect : ChTensor → ChTensor,
      ∀ x : ChTensor,
      InvertedResidual.forward hasExp
          (InvertedResidual.has_residual in_chs out_chs stride false)
          conv_pw bn1 conv_dw bn2 se conv_pw1 bn3 drop_connect x =
        if in_chs = out_chs ∧ stride = 1 then
          tensorAdd (drop_connect (bn3 (conv_pw1 (se (bn2 (conv_dw
            (if hasExp then bn1 (conv_pw x) else x))))))) x
        else some (bn3 (conv_pw1 (se (bn2 (conv_dw
          (if hasExp then bn1 (conv_pw x) else x))))))) ∧
    (∀ bn1 conv1 bn2 conv2 attention drop_connect : ChTensor → ChTensor,
      ∀ x : ChTensor,
      DarkBasicBlock.forward bn1 conv1 bn2 conv2 attention drop_connect x =
        tensorAdd (drop_connect (attention (conv2 (bn2 (conv1 x))))) x) := by
  refine ⟨?_, ?_, ?_, ?_, ?_, ?_, fun _ _ _ _ _ _ _ => rfl⟩
  · simp [SimpleBottleneck.has_residual]
  · simp [SimplePreActBottleneck.has_residual]
  · simp [InvertedResidual.has_residual]
  · intro conv1 bn1 conv2 bn2 conv3 bn3 x
    by_cases h1 : in_chs = out_chs <;> by_cases h2 : stride = 1 <;>
      simp [SimpleBottleneck.forward, SimpleBottleneck.has_residual, h1, h2]
  · intro bn1 conv1 bn2 conv2 bn3 conv3 x
    by_cases h1 : in_chs = out_chs <;> by_cases h2 : stride = 1 <;>
      simp [SimplePreActBottleneck.forward, SimplePreActBottleneck.has_residual,
        h1, h2]
  · intro hasExp conv_pw bn1 conv_dw bn2 se conv_pw1 bn3 drop_connect x
    by_cases h1 : in_chs = out_chs <;> by_cases h2 : stride = 1 <;>
      simp [InvertedResidual.forward, InvertedResidual.has_residual, h1, h2]

/-- Claim C1 counterexample: a DarkBasicBlock with 4 input channels and 8
output channels (and no stride at all; its convolutions are unstrided).
The claim predicts no residual addition, so the forward pass would return
the 8-channel branch output; the code adds the 4-channel input to the
8-channel branch unconditionally, so the forward pass fails instead of
returning a tensor. The submodules are instantiated so that the branch
yields 8 channels, as conv2 (mid_channels to out_channels = 8) does. -/
theorem darkBasicBlock_unconditional_residual_cex :
    DarkBasicBlock.forward id id id (fun _ => [0, 0, 0, 0, 0, 0, 0, 0]) id id
        [1, 1, 1, 1] = none ∧
    ([0, 0, 0, 0, 0, 0, 0, 0] : ChTensor).length ≠
      ([1, 1, 1, 1] : ChTensor).length :=
  ⟨rfl, by decide⟩

/-- Claim C5: in DarkBasicBlock.forward the first convolution consumes the
raw input x, the output of the first normalization bn1 is computed but never
consumed (the output does not depend on bn1 at all), and the output is the
attention-and-drop-connect branch conv2(bn2(conv1 x)) plus x with no
activation after the addition. -/
theorem darkBasicBlock_forward_order
    (bn1 conv1 bn2 conv2 attention drop_connect : ChTensor → ChTensor)
    (x : ChTensor) :
    DarkBasicBlock.forward bn1 conv1 bn2 conv2 attention drop_connect x =
      tensorAdd (drop_connect (attention (conv2 (bn2 (conv1 x))))) x ∧
    (∀ g : ChTensor → ChTensor,
      DarkBasicBlock.forward bn1 conv1 bn2 conv2 attention drop_connect x =
        DarkBasicBlock.forward g conv1 bn2 conv2 attention drop_connect x) :=
  ⟨rfl, fun g => rfl⟩

/-- Claim C8: InvertedResidual.forward applies, in order, the optional 1x1
expansion with its normalization (exactly when expand_ratio is not 1), the
depthwise convolution with its normalization, the attention module before
the projection convolution, the projection convolution, the normalization
built with the identity activation, and, exactly when the residual is
enabled, drop connect on the branch followed by addition of the input,
with nothing after the addition. -/
theorem invertedResidual_forward_order (expand_r : ℚ)
    (in_channels out_channels stride : ℕ)
    (conv_pw bn1 conv_dw bn2 se conv_pw1 bn3 drop_connect : ChTensor → ChTensor)
    (x : ChTensor) :
    (InvertedResidual.has_expansion expand_r = true ↔ expand_r ≠ 1) ∧
    InvertedResidual.bn3_activation = "identity" ∧
    (InvertedResidual.forward (InvertedResidual.has_expansion expand_r)
        (InvertedResidual.has_residual in_channels out_channels stride false)
        conv_pw bn1 conv_dw bn2 se conv_pw1 bn3 drop_connect x =
      if in_channels = out_channels ∧ stride = 1 then
        tensorAdd
          (drop_connect (bn3 (conv_pw1 (se (bn2 (conv_dw
            (if expand_r ≠ 1 then bn1 (conv_pw x) else x))))))) x
      else
        some (bn3 (conv_pw1 (se (bn2 (conv_dw
          (if expand_r ≠ 1 then bn1 (conv_pw x) else x))))))) := by
  refine ⟨by simp [InvertedResidual.has_expansion], rfl, ?_⟩
  by_cases he : expand_r = 1 <;> by_cases h1 : in_channels = out_channels <;>
    by_cases h2 : stride = 1 <;>
      simp [InvertedResidual.forward, InvertedResidual.has_expansion,
        InvertedResidual.has_residual, he, h1, h2]

/-- Claim C6 (amended): in BasicBlock and Bottleneck anti-aliasing is in
effect exactly when it is requested and the stride is 2; in that case the
convolution that would have strided is built with stride 1 and the blur
pool is inserted right after that convolution and its normalization
(before the next convolution, which is unstrided), itself carrying the
stride-2 downsampling; when the stride is not 2 the flag is ignored, no
blur appears, and in every case the branch downsamples by exactly the
configured stride. -/
theorem antialias_spec (antialias : Bool) (stride : ℕ) :
    (BasicBlock.antialiasEffective antialias stride = true ↔
      antialias = true ∧ stride = 2) ∧
    (Bottleneck.antialiasEffective antialias stride = true ↔
      antialias = true ∧ stride = 2) ∧
    (BasicBlock.antialiasEffective antialias stride = true →
      BasicBlock.conv1_stride antialias stride = 1 ∧
      BasicBlock.mainPath antialias stride =
        [LayerOp.conv 1, LayerOp.norm, LayerOp.blur, LayerOp.conv 1,
         LayerOp.norm, LayerOp.se, LayerOp.dropConnect, LayerOp.addResidual,
         LayerOp.act]) ∧
    (BasicBlock.antialiasEffective antialias stride = false →
      BasicBlock.conv1_stride antialias stride = stride ∧
      LayerOp.blur ∉ BasicBlock.mainPath antialias stride) ∧
    (Bottleneck.antialiasEffective antialias stride = true →
      Bottleneck.conv2_stride antialias stride = 1 ∧
      Bottleneck.mainPath antialias stride =
        [LayerOp.conv 1, LayerOp.norm, LayerOp.conv 1, LayerOp.norm,
         LayerOp.blur, LayerOp.conv 1, LayerOp.norm, LayerOp.se,
         LayerOp.dropConnect, LayerOp.addResidual, LayerOp.act]) ∧
    (Bottleneck.antialiasEffective antialias stride = false →
      Bottleneck.conv2_stride antialias stride = stride ∧
      LayerOp.blur ∉ Bottleneck.mainPath antialias stride) ∧
    pathDownsampleFactor (BasicBlock.mainPath antialias stride) = stride ∧
    pathDownsampleFactor (Bottleneck.mainPath antialias stride) = stride := by
  by_cases h : antialias = true ∧ stride = 2
  · obtain ⟨ha, hs⟩ := h
    subst ha hs
    refine ⟨by simp [BasicBlock.antialiasEffective],
      by simp [Bottleneck.antialiasEffective], fun _ => ?_, fun hf => ?_,
      fun _ => ?_, fun hf => ?_, ?_, ?_⟩
    · constructor <;>
        simp [BasicBlock.mainPath, BasicBlock.conv1_stride,
          BasicBlock.antialiasEffective]
    · exact absurd hf (by simp [BasicBlock.antialiasEffective])
    · constructor <;>
        simp [Bottleneck.mainPath, Bottleneck.conv2_stride,
          Bottleneck.antialiasEffective]
    · exact absurd hf (by simp [Bottleneck.antialiasEffective])
    · simp [pathDownsampleFactor, BasicBlock.mainPath, BasicBlock.conv1_stride,
        BasicBlock.antialiasEffective, LayerOp.downsampleFactor]
    · simp [pathDownsampleFactor, Bottleneck.mainPath, Bottleneck.conv2_stride,
        Bottleneck.antialiasEffective, LayerOp.downsampleFactor]
  · have hb : (antialias && stride == 2) = false := by
      rcases not_and_or.mp h with ha | hs
      · simp [Bool.not_eq_true] at ha
        simp [ha]
      · simp [beq_eq_false_iff_ne.mpr hs]
    refine ⟨?_, ?_, fun hf => ?_, fun _ => ?_, fun hf => ?_, fun _ => ?_, ?_, ?_⟩
    · simp [BasicBlock.antialiasEffective, hb]
      exact fun ha hs => h ⟨ha, hs⟩
    · simp [Bottleneck.antialiasEffective, hb]
      exact fun ha hs => h ⟨ha, hs⟩
    · exact absurd hf (by simp [BasicBlock.antialiasEffective, hb])
    · constructor
      · simp [BasicBlock.conv1_stride, BasicBlock.antialiasEffective, hb]
      · simp [BasicBlock.mainPath, BasicBlock.antialiasEffective, hb]
    · exact absurd hf (by simp [Bottleneck.antialiasEffective, hb])
    · constructor
      · simp [Bottleneck.conv2_stride, Bottleneck.antialiasEffective, hb]
      · simp [Bottleneck.mainPath, Bottleneck.antialiasEffective, hb]
    · simp [pathDownsampleFactor, BasicBlock.mainPath, BasicBlock.conv1_stride,
        BasicBlock.antialiasEffective, hb, LayerOp.downsampleFactor]
    · simp [pathDownsampleFactor, Bottleneck.mainPath, Bottleneck.conv2_stride,
        Bottleneck.antialiasEffective, hb, LayerOp.downsampleFactor]

/-- Claim C6 counterexample: with anti-aliasing requested and stride 2 it is
in effect, a blur operation is present, yet no convolution of stride 2 (or
more) follows it in either branch: the blur follows the convolution whose
stride was moved, it does not precede a strided convolution. -/
theorem antialias_blur_position_cex :
    BasicBlock.antialiasEffective true 2 = true ∧
    LayerOp.blur ∈ BasicBlock.mainPath true 2 ∧
    blurBeforeStridedConv (BasicBlock.mainPath true 2) = false ∧
    LayerOp.blur ∈ Bottleneck.mainPath true 2 ∧
    blurBeforeStridedConv (Bottleneck.mainPath true 2) = false := by
  decide

/-- Claim C4: in training mode DropConnect.forward keeps the shape of its
input, computes every output sample as (x / keep_prob) * floor(keep_prob +
u), which multiplies a kept sample by 1/keep_prob and zeroes a dropped one,
and the decision is one per batch element: for a uniform draw in [0,1) the
kept draws form exactly the interval [1 - keep_prob, 1), of measure
keep_prob. -/
theorem dropConnect_training_spec (keep_prob : ℚ) (x : List (List ℚ))
    (u : ℕ → ℚ) (hkp0 : 0 < keep_prob) (hkp1 : keep_prob ≤ 1) :
    (DropConnect.forward true keep_prob x u).length = x.length ∧
    (∀ i, i < x.length →
      (DropConnect.forward true keep_prob x u).getD i [] =
        (x.getD i []).map fun v =>
          v / keep_prob * ((⌊keep_prob + u i⌋ : ℤ) : ℚ)) ∧
    (∀ i, ((DropConnect.forward true keep_prob x u).getD i []).length =
      (x.getD i []).length) ∧
    (∀ i, i < x.length → 0 ≤ u i → u i < 1 →
      (1 - keep_prob ≤ u i →
        (DropConnect.forward true keep_prob x u).getD i [] =
          (x.getD i []).map fun v => v * (1 / keep_prob)) ∧
      (u i < 1 - keep_prob →
        (DropConnect.forward true keep_prob x u).getD i [] =
          (x.getD i []).map fun v => (0 : ℚ))) ∧
    DropConnect.keepSet (keep_prob : ℝ) = Set.Ico (1 - (keep_prob : ℝ)) 1 ∧
    MeasureTheory.volume (DropConnect.keepSet (keep_prob : ℝ)) =
      ENNReal.ofReal (keep_prob : ℝ) := by
  have hfwd : DropConnect.forward true keep_prob x u =
      (List.range x.length).map (fun i => (x.getD i []).map fun v =>
        v / keep_prob * ((⌊keep_prob + u i⌋ : ℤ) : ℚ)) := rfl
  have p1 : (DropConnect.forward true keep_prob x u).length = x.length := by
    rw [hfwd]; simp
  have p2 : ∀ i, i < x.length →
      (DropConnect.forward true keep_prob x u).getD i [] =
        (x.getD i []).map fun v =>
          v / keep_prob * ((⌊keep_prob + u i⌋ : ℤ) : ℚ) := by
    intro i hi
    rw [hfwd, List.getD_eq_getElem?_getD, List.getElem?_map,
      List.getElem?_range hi]
    rfl
  have p3 : ∀ i, ((DropConnect.forward true keep_prob x u).getD i []).length =
      (x.getD i []).length := by
    intro i
    by_cases hi : i < x.length
    · rw [p2 i hi, List.length_map]
    · push_neg at hi
      have h1 : (DropConnect.forward true keep_prob x u).getD i [] = [] := by
        apply List.getD_eq_default
        rw [p1]; exact hi
      have h2 : x.getD i [] = ([] : List ℚ) := by
        apply List.getD_eq_default
        exact hi
      rw [h1, h2]
  have p4 : ∀ i, i < x.length → 0 ≤ u i → u i < 1 →
      (1 - keep_prob ≤ u i →
        (DropConnect.forward true keep_prob x u).getD i [] =
          (x.getD i []).map fun v => v * (1 / keep_prob)) ∧
      (u i < 1 - keep_prob →
        (DropConnect.forward true keep_prob x u).getD i [] =
          (x.getD i []).map fun v => (0 : ℚ)) := by
    intro i hi h0 h1
    constructor
    · intro hge
      have hf : (⌊keep_prob + u i⌋ : ℤ) = 1 := by
        rw [Int.floor_eq_iff]
        constructor
        · push_cast; linarith
        · push_cast; linarith
      rw [p2 i hi]
      have hfun : (fun v : ℚ => v / keep_prob * ((⌊keep_prob + u i⌋ : ℤ) : ℚ)) =
          fun v : ℚ => v * (1 / keep_prob) := by
        funext v
        rw [hf]
        push_cast
        ring
      rw [hfun]
    · intro hlt
      have hf : (⌊keep_prob + u i⌋ : ℤ) = 0 := by
        rw [Int.floor_eq_iff]
        constructor
        · push_cast; linarith
        · push_cast; linarith
      rw [p2 i hi]
      have hfun : (fun v : ℚ => v / keep_prob * ((⌊keep_prob + u i⌋ : ℤ) : ℚ)) =
          fun v : ℚ => (0 : ℚ) := by
        funext v
        rw [hf]
        push_cast
        ring
      rw [hfun]
  have hc0 : (0 : ℝ) < (keep_prob : ℝ) := by exact_mod_cast hkp0
  have hc1 : (keep_prob : ℝ) ≤ 1 := by exact_mod_cast hkp1
  have p5 : DropConnect.keepSet (keep_prob : ℝ) =
      Set.Ico (1 - (keep_prob : ℝ)) 1 := by
    ext t
    simp only [DropConnect.keepSet, Set.mem_setOf_eq, Set.mem_Ico]
    constructor
    · rintro ⟨⟨ht0, ht1⟩, hf⟩
      have hb := Int.floor_eq_iff.mp hf
      push_cast at hb
      exact ⟨by linarith [hb.1], ht1⟩
    · rintro ⟨ht0, ht1⟩
      refine ⟨⟨by linarith, ht1⟩, ?_⟩
      rw [Int.floor_eq_iff]
      constructor
      · push_cast; linarith
      · push_cast; linarith
  have p6 : MeasureTheory.volume (DropConnect.keepSet (keep_prob : ℝ)) =
      ENNReal.ofReal (keep_prob : ℝ) := by
    rw [p5, Real.volume_Ico]
    congr 1
    ring
  exact ⟨p1, p2, p3, p4, p5, p6⟩

/-- Closed check of claim C4 at keep probability 1/2, the batch [[2]] and
the per-sample draw 3/4: the hypotheses hold and the keep set has measure
1/2; the single sample obeys the floor formula. -/
theorem dropConnect_training_spec_witness :
    0 < (1/2 : ℚ) ∧ (1/2 : ℚ) ≤ 1 ∧
    MeasureTheory.volume (DropConnect.keepSet ((1/2 : ℚ) : ℝ)) =
      ENNReal.ofReal ((1/2 : ℚ) : ℝ) ∧
    (DropConnect.forward true (1/2) [[2]] fun _ => 3/4).getD 0 [] =
      ([[(2 : ℚ)]].getD 0 []).map fun v =>
        v / (1/2) * ((⌊(1/2 : ℚ) + (3/4 : ℚ)⌋ : ℤ) : ℚ) :=
  ⟨by norm_num, by norm_num,
   (dropConnect_training_spec (1/2) [[2]] (fun _ => 3/4) (by norm_num)
     (by norm_num)).2.2.2.2.2,
   (dropConnect_training_spec (1/2) [[2]] (fun _ => 3/4) (by norm_num)
     (by norm_num)).2.1 0 (by norm_num)⟩

/-- Claim C7: after the transition block, CrossStage.forward with ratio 0.5
chunks the tensor into two equal halves, routes only the second half through
the inner blocks and the transition convolution, and the concatenation of
the untouched half with the processed half has the original post-transition
channel count; with ratio 0.75 it chunks four ways, regroups the last three
quarters into the single path fed to the inner blocks, and concatenates the
remaining quarter back in front; the constructed inner-block channel count
block_chs matches the routed part in both cases. -/
theorem crossStage_split_spec
    (first_layer blocks x2_transition : ChTensor → ChTensor)
    (hb : ∀ t, (blocks t).length = t.length)
    (ht : ∀ t, (x2_transition t).length = t.length) :
    (∀ x u v, first_layer x = u ++ v → u.length = v.length → u ≠ [] →
      CrossStage.forward (1/2) first_layer blocks x2_transition x =
        some (tensorCat u (x2_transition (blocks v))) ∧
      (tensorCat u (x2_transition (blocks v))).length =
        (first_layer x).length) ∧
    (∀ x q1 q2 q3 q4, first_layer x = q1 ++ (q2 ++ (q3 ++ q4)) →
      q1.length = q2.length → q1.length = q3.length → q1.length = q4.length →
      q1 ≠ [] →
      CrossStage.forward (3/4) first_layer blocks x2_transition x =
        some (tensorCat q1
          (x2_transition (blocks (tensorCat (tensorCat q2 q3) q4)))) ∧
      (tensorCat q1
          (x2_transition (blocks (tensorCat (tensorCat q2 q3) q4)))).length =
        (first_layer x).length) ∧
    (∀ m : ℕ, CrossStage.block_chs (1/2) (2 * m) = m ∧
      CrossStage.block_chs (3/4) (4 * m) = 3 * m) := by
  refine ⟨?_, ?_, ?_⟩
  · intro x u v he hl hne
    have hsplit : CrossStage.split (1/2) (first_layer x) = some (u, v) := by
      rw [he]
      unfold CrossStage.split
      rw [if_pos rfl, torchChunk_two u v hl hne]
    constructor
    · simp only [CrossStage.forward, hsplit]
    · simp [tensorCat, he, List.length_append, ht, hb, hl]
  · intro x q1 q2 q3 q4 he h2 h3 h4 hne
    have hsplit : CrossStage.split (3/4) (first_layer x) =
        some (q1, tensorCat (tensorCat q2 q3) q4) := by
      rw [he]
      unfold CrossStage.split
      rw [if_neg (by norm_num), if_pos rfl, torchChunk_four q1 q2 q3 q4 h2 h3 h4 hne]
    constructor
    · simp only [CrossStage.forward, hsplit]
    · simp only [tensorCat, he, List.length_append, ht, hb]
      omega
  · intro m
    constructor
    · have h : (1/2 : ℚ) * ((2 * m : ℕ) : ℚ) = ((m : ℕ) : ℚ) := by
        push_cast; ring
      rw [CrossStage.block_chs, h, Int.floor_natCast]
      exact Int.toNat_natCast m
    · have h : (3/4 : ℚ) * ((4 * m : ℕ) : ℚ) = ((3 * m : ℕ) : ℚ) := by
        push_cast; ring
      rw [CrossStage.block_chs, h, Int.floor_natCast]
      exact Int.toNat_natCast (3 * m)

/-- Closed check of claim C7 on the post-transition tensor [1, 2, 3, 4]
with identity inner blocks and transition: both ratios reproduce the
original four channels. -/
theorem crossStage_split_spec_witness :
    CrossStage.forward (1/2) (fun t => [1, 2, 3, 4]) id id [] =
      some [1, 2, 3, 4] ∧
    CrossStage.forward (3/4) (fun t => [1, 2, 3, 4]) id id [] =
      some [1, 2, 3, 4] := by
  have h := crossStage_split_spec (fun t => [1, 2, 3, 4]) id id
    (fun t => rfl) (fun t => rfl)
  exact ⟨(h.1 [] [1, 2] [3, 4] rfl rfl (by simp)).1,
    (h.2.1 [] [1] [2] [3] [4] rfl rfl rfl rfl (by simp)).1⟩

/-- Claim C9: the first statement of CSPDarkBasicBlock.__init__ reads
bottle_ratio, which is neither a parameter of the constructor nor a
module-level binding of residual.py, so construction fails with a NameError
for every choice of arguments, before any forward pass can run. -/
theorem cspDarkBasicBlock_init_name_error
    (in_channels out_channels keep_prob : ℚ) :
    "bottle_ratio" ∉ CSPDarkBasicBlock.initParamNames ∧
    "bottle_ratio" ∉ residualModuleGlobals ∧
    CSPDarkBasicBlock.init in_channels out_channels keep_prob =
      Except.error "NameError: name bottle_ratio is not defined" :=
  ⟨by decide, by decide, rfl⟩

/-- Claim C10: for any csp_block_ratio other than 0.5 and 0.75 neither
branch of the split in CrossStage.forward executes, so the forward pass
raises instead of returning a tensor, for every input and every choice of
submodules. -/
theorem crossStage_other_split_raises (r : ℚ)
    (first_layer blocks x2_transition : ChTensor → ChTensor) (x : ChTensor)
    (h1 : r ≠ 1/2) (h2 : r ≠ 3/4) :
    CrossStage.forward r first_layer blocks x2_transition x = none := by
  simp only [CrossStage.forward, CrossStage.split]
  rw [if_neg h1, if_neg h2]

/-- Closed check of claim C10 at ratio 0.25: the forward pass yields no
tensor. -/
theorem crossStage_other_split_raises_witness :
    CrossStage.forward (1/4) id id id [1, 2] = none :=
  crossStage_other_split_raises (1/4) id id id [1, 2] (by norm_num)
    (by norm_num)
